import Mathlib

/-!
Verification of the Sticker Sketchpad undo/redo command history and the
draw-command abstraction.  The definitions below are a shallow embedding of
the final revision of the application (the revision with the tool registry,
sticker tools, cursor preview and custom stickers); JavaScript arrays used
as stacks are Lean lists in the same order (push appends at the end, the top
of a stack is the last element), JavaScript numbers are rationals extended
with a NaN sentinel (the modeled core never performs arithmetic on stored
coordinates), and a thrown error is an explicit `Option ToolError` result.
-/

namespace StickerSketchpad

/-- JavaScript numbers as stored by the modeled core: either NaN (used only
as the "undefined position" sentinel) or an exact number. -/
inductive JsNum where
  | nan
  | num (q : ℚ)
deriving DecidableEq

/-- Source expression `options.lineWidth / 2`, used for the circle cursor radius. -/
def JsNum.half : JsNum → JsNum
  | .nan => .nan
  | .num q => .num (q / 2)

/-- Source `interface Point {x: number, y: number}`. -/
structure Point where
  x : JsNum
  y : JsNum
deriving DecidableEq

/-- The sentinel `{x: NaN, y: NaN}` position. -/
def nanPoint : Point := ⟨.nan, .nan⟩

/-- The three kinds of draw command the application creates:
`makeMarkerDrawCommand` (captures `colorPicker.value` and holds a point
list), `makeCircleCursorDrawCommand` (holds a position) and
`makeStickerDrawCommand` (captures the rotation slider value and holds a
position). -/
inductive DrawCommand where
  | marker (lineWidth : JsNum) (color : String) (points : List Point)
  | circleCursor (radius : JsNum) (posn : Point)
  | sticker (text : String) (rotation : JsNum) (posn : Point)
deriving DecidableEq

/-- The `posn` getter: a marker reports its last point, or `{x:NaN,y:NaN}`
when it has none; the other commands report their stored position. -/
def DrawCommand.posn : DrawCommand → Point
  | .marker _ _ pts =>
    match pts.getLast? with
    | some p => p
    | none => nanPoint
  | .circleCursor _ p => p
  | .sticker _ _ p => p

/-- The `move` method: a marker pushes the point onto its point list, the
circle cursor and the sticker replace their stored position. -/
def DrawCommand.move : DrawCommand → Point → DrawCommand
  | .marker w c pts, p => .marker w c (pts ++ [p])
  | .circleCursor r _, p => .circleCursor r p
  | .sticker t r _, p => .sticker t r p

/-- Drawing primitives issued against the canvas 2D surface, recorded as a
trace: one `line` per `drawLine` call, one `circle` per `drawCircle` call,
one `text` per `fillText` call (with the transform parameters recorded in
the primitive). -/
inductive Prim where
  | line (lineWidth : JsNum) (color : String) (p1 p2 : Point)
  | circle (lineWidth : JsNum) (color : String) (center : Point) (radius : JsNum)
  | text (s : String) (posn : Point) (rotation : JsNum)
deriving DecidableEq

/-- The loop body of `forEachAdjacentPair`: `lastT` carries the previous
element (initially `null`), and each iteration with a previous element
emits one call. -/
def forEachAdjacentPairLoop {T U : Type} (doWhat : T → T → U) :
    Option T → List T → List U
  | _, [] => []
  | none, t :: ts => forEachAdjacentPairLoop doWhat (some t) ts
  | some lastT, t :: ts => doWhat lastT t :: forEachAdjacentPairLoop doWhat (some t) ts

/-- Source function `forEachAdjacentPair(ts, doWhat)`, returning the emitted calls in
order. -/
def forEachAdjacentPair {T U : Type} (ts : List T) (doWhat : T → T → U) :
    List U :=
  forEachAdjacentPairLoop doWhat none ts

/-- The `draw` method of each command, as the trace of primitives it issues.
The marker strokes one line per adjacent pair of stored points with its
captured color and line width; the circle cursor strokes a circle reading
the color picker live (`liveColor`); the sticker fills its text at its
stored position and rotation. -/
def DrawCommand.draw : DrawCommand → String → List Prim
  | .marker w c pts, _ => forEachAdjacentPair pts (fun p1 p2 => .line w c p1 p2)
  | .circleCursor r p, liveColor => [.circle (.num 1) liveColor p r]
  | .sticker t rot p, _ => [.text t p rot]

/-- A registered drawing tool: `makeMarkerDrawingTool({lineWidth})` or
`makeStickerDrawingTool({text})`. -/
inductive DrawingTool where
  | markerTool (lineWidth : JsNum)
  | stickerTool (text : String)
deriving DecidableEq

/-- The mutable application state: the display list (aliased as the undo
stack), the redo stack, the active tool name, the cursor draw command, the
tool registry `drawingTools` (a JS object, modeled as an association list
in insertion order with unique keys), the tool buttons created so far, and
the two live input widgets read by the factories. -/
structure AppState where
  displayList : List DrawCommand
  redoStack : List DrawCommand
  drawingTool : String
  cursorDrawCommand : Option DrawCommand
  drawingTools : List (String × DrawingTool)
  toolButtons : List String
  colorPickerValue : String
  stickerRotationValue : JsNum
deriving DecidableEq

/-- JS object property lookup on the registry (keys are unique, first match
returned). -/
def lookupKey (reg : List (String × DrawingTool)) (k : String) :
    Option DrawingTool :=
  match reg with
  | [] => none
  | (k2, t) :: rest => if k2 = k then some t else lookupKey rest k

/-- Lookup `drawingTools[drawingTool]`, `undefined` when the id was never
registered. -/
def lookupTool (s : AppState) : Option DrawingTool :=
  lookupKey s.drawingTools s.drawingTool

/-- Source field `posn: {...(cursorDrawCommand?.posn || {x: NaN, y: NaN})}` — the position
a fresh sticker captures (a copy of the cursor preview's position, or the
NaN sentinel when no preview exists; points are objects, hence always
truthy, so `||` triggers exactly when `cursorDrawCommand` is null). -/
def cursorPosnOrNan (s : AppState) : Point :=
  match s.cursorDrawCommand with
  | some c => c.posn
  | none => nanPoint

/-- Method `makeDrawCommand()` of a tool: the marker factory captures the color
picker's current value and starts with an empty point list; the sticker
factory captures the rotation slider's current value and the cursor
preview's position. -/
def DrawingTool.makeDrawCommand : DrawingTool → AppState → DrawCommand
  | .markerTool w, s => .marker w s.colorPickerValue []
  | .stickerTool text, s => .sticker text s.stickerRotationValue (cursorPosnOrNan s)

/-- Method `makeCursorDrawCommand()` of a tool: the marker tool builds a circle
cursor of radius `lineWidth / 2` at the NaN sentinel; the sticker tool
delegates to its own `makeDrawCommand`. -/
def DrawingTool.makeCursorDrawCommand : DrawingTool → AppState → DrawCommand
  | .markerTool w, _ => .circleCursor w.half nanPoint
  | .stickerTool text, s => DrawingTool.makeDrawCommand (.stickerTool text) s

/-- The error a factory call surfaces when the active tool id is not in the
registry (in the JavaScript source, the property access yields `undefined`
and the method call throws). -/
inductive ToolError where
  | unknownTool
deriving DecidableEq

/-- Function `drawingUndo()`: when the undo stack (the display list) is non-empty,
pop its top onto the redo stack and return true; otherwise return false. -/
def drawingUndo (s : AppState) : AppState × Bool :=
  match s.displayList.getLast? with
  | some cmd =>
    ({s with displayList := s.displayList.dropLast,
             redoStack := s.redoStack ++ [cmd]}, true)
  | none => (s, false)

/-- Function `drawingRedo()`: when the redo stack is non-empty, pop its top onto the
undo stack and return true; otherwise return false. -/
def drawingRedo (s : AppState) : AppState × Bool :=
  match s.redoStack.getLast? with
  | some cmd =>
    ({s with redoStack := s.redoStack.dropLast,
             displayList := s.displayList ++ [cmd]}, true)
  | none => (s, false)

/-- Function `drawingClear()`: empty the redo stack and the display list. -/
def drawingClear (s : AppState) : AppState :=
  {s with redoStack := [], displayList := []}

/-- Function `drawingBeginUndoStep()`: clear the redo stack, then push a fresh draw
command from the active tool.  The redo stack is cleared first, so it is
empty even when the registry lookup fails and the factory call throws (in
which case nothing is pushed and the error propagates). -/
def drawingBeginUndoStep (s : AppState) : AppState × Option ToolError :=
  let s1 := {s with redoStack := ([] : List DrawCommand)}
  match lookupTool s with
  | none => (s1, some .unknownTool)
  | some t =>
    ({s1 with displayList := s1.displayList ++ [t.makeDrawCommand s]}, none)

/-- Function `drawingGetUndoStep()`: the top of the undo stack, or null. -/
def drawingGetUndoStep (s : AppState) : Option DrawCommand :=
  s.displayList.getLast?

/-- Function `drawingShowCursor()`: replace the cursor draw command with a fresh one
from the active tool; when the registry lookup fails the assignment does
not happen and the error propagates. -/
def drawingShowCursor (s : AppState) : AppState × Option ToolError :=
  match lookupTool s with
  | none => (s, some .unknownTool)
  | some t =>
    ({s with cursorDrawCommand := some (t.makeCursorDrawCommand s)}, none)

/-- Function `drawingHideCursor()`. -/
def drawingHideCursor (s : AppState) : AppState :=
  {s with cursorDrawCommand := none}

/-- Function `drawingSetTool(which)`: set the active tool name, then show the fresh
cursor (an unknown name leaves the cursor unchanged and the error
propagates after the assignment to `drawingTool`). -/
def drawingSetTool (which : String) (s : AppState) :
    AppState × Option ToolError :=
  drawingShowCursor {s with drawingTool := which}

/-- The `onclick` handler `makeToolButton` installs: when the clicked tool
is not already active, call `drawingSetTool` and fire the tool-changed and
tool-moved events (the returned flag records whether the events fired);
otherwise do nothing. -/
def toolButtonClick (toolName : String) (s : AppState) : AppState × Bool :=
  if s.drawingTool ≠ toolName then
    ((drawingSetTool toolName s).1, true)
  else
    (s, false)

/-- Own property names of `Object.prototype`: the JS `in` operator answers
true for these on any object literal even when they are not own keys,
because `in` traverses the prototype chain. -/
def objectPrototypeKeys : List String :=
  ["constructor", "hasOwnProperty", "isPrototypeOf", "propertyIsEnumerable",
   "toLocaleString", "toString", "valueOf", "__defineGetter__",
   "__defineSetter__", "__lookupGetter__", "__lookupSetter__", "__proto__"]

/-- The test `options.text in drawingTools` on the registry object literal:
true for an own key or for a key inherited from `Object.prototype`. -/
def jsIn (reg : List (String × DrawingTool)) (k : String) : Bool :=
  (lookupKey reg k).isSome || decide (k ∈ objectPrototypeKeys)

/-- Result of the property read `drawingTools[options.text]` in the
already-known branch of `defineCustomSticker`: the registered tool for an
own key, or the inherited `Object.prototype` member (not a drawing tool)
for a prototype-chain key. -/
inductive DefineResult where
  | tool (t : DrawingTool)
  | inherited (name : String)
deriving DecidableEq

/-- Function `defineCustomSticker(options)`: the source tests
`options.text in drawingTools` with the JS `in` operator, which also
answers true for keys inherited from `Object.prototype`; in that branch it
returns the property read `drawingTools[options.text]` (the own tool entry
when one exists, the inherited prototype member otherwise) and registers
nothing; only when `in` answers false does it register a fresh sticker
tool under the text and create its tool button. -/
def defineCustomSticker (s : AppState) (text : String) :
    AppState × DefineResult :=
  if jsIn s.drawingTools text then
    match lookupKey s.drawingTools text with
    | some t => (s, .tool t)
    | none => (s, .inherited text)
  else
    let t := DrawingTool.stickerTool text
    ({s with drawingTools := s.drawingTools ++ [(text, t)],
             toolButtons := s.toolButtons ++ [text]}, .tool t)

/-- The `mousedown` handler body for a left click: `drawingBeginUndoStep()`
then `drawingHideCursor()`; when the begin-step factory call throws, the
cursor is left as it was. -/
def mousedownHandler (s : AppState) : AppState :=
  match drawingBeginUndoStep s with
  | (s1, none) => drawingHideCursor s1
  | (s1, some _) => s1

/-- The `mousemove` handler body: with the left button held and a non-empty
display list, hide the cursor and forward the position to the top draw
command; otherwise show the cursor and move it to the position (when the
active tool is unknown, `drawingShowCursor` throws and nothing changes). -/
def mousemoveHandler (held : Bool) (p : Point) (s : AppState) : AppState :=
  if held = true ∧ s.displayList ≠ [] then
    let s1 := drawingHideCursor s
    match drawingGetUndoStep s1 with
    | some cmd =>
      {s1 with displayList := s1.displayList.dropLast ++ [cmd.move p]}
    | none => s1
  else
    match drawingShowCursor s with
    | (s1, none) =>
      {s1 with cursorDrawCommand := s1.cursorDrawCommand.map (·.move p)}
    | (s1, some _) => s1

/-- The input events the application reacts to, each running its handler
from the source: a left-button mousedown, a mousemove (with the held flag
of the left button), the Undo/Redo/Clear action buttons, and a tool button
click. -/
inductive Op where
  | mousedown
  | mousemove (held : Bool) (p : Point)
  | undoClick
  | redoClick
  | clearClick
  | toolClick (name : String)
deriving DecidableEq

/-- Run one input event's handler. -/
def runOp : Op → AppState → AppState
  | .mousedown, s => mousedownHandler s
  | .mousemove held p, s => mousemoveHandler held p s
  | .undoClick, s => (drawingUndo s).1
  | .redoClick, s => (drawingRedo s).1
  | .clearClick, s => drawingClear s
  | .toolClick n, s => (toolButtonClick n s).1

/-- Run a sequence of input events in order. -/
def runOps (ops : List Op) (s : AppState) : AppState :=
  ops.foldl (fun s o => runOp o s) s

/-- Constant `RELIEVED_EMOJI`. -/
def RELIEVED_EMOJI : String := "😌"

/-- Constant `EXPRESSIONLESS_EMOJI`. -/
def EXPRESSIONLESS_EMOJI : String := "😑"

/-- Constant `PENSIVE_EMOJI`. -/
def PENSIVE_EMOJI : String := "😔"

/-- The `drawingTools` registry as seeded at process start. -/
def initialDrawingTools : List (String × DrawingTool) :=
  [("Thin Marker", .markerTool (.num 2)),
   ("Thick Marker", .markerTool (.num 6)),
   (RELIEVED_EMOJI, .stickerTool RELIEVED_EMOJI),
   (EXPRESSIONLESS_EMOJI, .stickerTool EXPRESSIONLESS_EMOJI),
   (PENSIVE_EMOJI, .stickerTool PENSIVE_EMOJI)]

/-- The application state right after runtime initialization: empty stacks,
one tool button per seeded tool, the browser defaults for the color picker
and the rotation slider, and the cursor produced by
`drawingSetTool("Thin Marker")` (a circle cursor of radius `2 / 2 = 1` at
the NaN sentinel). -/
def initState : AppState :=
  { displayList := []
    redoStack := []
    drawingTool := "Thin Marker"
    cursorDrawCommand := some (.circleCursor (.num 1) nanPoint)
    drawingTools := initialDrawingTools
    toolButtons := initialDrawingTools.map Prod.fst
    colorPickerValue := "#000000"
    stickerRotationValue := .num 0 }

/-! ## General lemmas about the two-stack history -/

/-- The state after one `drawingUndo` (the Undo button's state effect). -/
def undoSt (s : AppState) : AppState := (drawingUndo s).1

/-- The state after one `drawingRedo` (the Redo button's state effect). -/
def redoSt (s : AppState) : AppState := (drawingRedo s).1

theorem getLast?_mem_of_eq {α : Type} {l : List α} {a : α}
    (h : l.getLast? = some a) : a ∈ l := by
  rcases List.eq_nil_or_concat l with rfl | ⟨L, b, rfl⟩
  · simp at h
  · simp only [List.concat_eq_append, List.getLast?_concat, Option.some.injEq] at h
    subst h
    simp

theorem undoSt_of_ne_nil (s : AppState) (h : s.displayList ≠ []) :
    undoSt s = {s with displayList := s.displayList.dropLast,
                       redoStack := s.redoStack ++ [s.displayList.getLast h]} := by
  rcases List.eq_nil_or_concat s.displayList with h0 | ⟨L, b, h0⟩
  · exact absurd h0 h
  · simp only [List.concat_eq_append] at h0
    simp [undoSt, drawingUndo, h0, List.getLast?_concat,
      List.getLast_append_of_ne_nil, List.dropLast_concat]

theorem redo_undo_cancel (s : AppState) (h : s.displayList ≠ []) :
    redoSt (undoSt s) = s := by
  obtain ⟨dl, rs, dt, cc, tools, btns, cpv, srv⟩ := s
  simp only [ne_eq] at h
  rcases List.eq_nil_or_concat dl with rfl | ⟨L, b, rfl⟩
  · exact absurd rfl h
  · simp [undoSt, redoSt, drawingUndo, drawingRedo, List.getLast?_concat,
      List.dropLast_concat]

theorem undo_redo_roundtrip (N : ℕ) :
    ∀ s : AppState, N ≤ s.displayList.length →
      redoSt^[N] (undoSt^[N] s) = s := by
  induction N with
  | zero => intro s _; rfl
  | succ n ih =>
    intro s h
    have hne : s.displayList ≠ [] := by
      intro h0
      rw [h0] at h
      simp at h
    have hlen : n ≤ (undoSt s).displayList.length := by
      rw [undoSt_of_ne_nil s hne]
      simp only [List.length_dropLast]
      omega
    rw [Function.iterate_succ_apply', Function.iterate_succ_apply,
      ih (undoSt s) hlen, redo_undo_cancel s hne]

/-! ## Claim theorems -/

/-- C1: for every history state reachable by a sequence of `beginStep`
(mousedown) and `applyMove` (drag) operations, and every `N` not exceeding
the length of the committed stack, calling `undo()` `N` times and then
`redo()` `N` times restores the committed stack to exactly its pre-undo
contents, element for element, with no intervening `beginStep` or
`clear`. -/
theorem undo_redo_inverse (ops : List Op)
    (_hops : ∀ o ∈ ops, o = Op.mousedown ∨ ∃ p, o = Op.mousemove true p)
    (N : ℕ) (hN : N ≤ (runOps ops initState).displayList.length) :
    (redoSt^[N] (undoSt^[N] (runOps ops initState))).displayList
      = (runOps ops initState).displayList := by
  rw [undo_redo_roundtrip N (runOps ops initState) hN]

theorem undo_redo_inverse_witness :
    1 ≤ (runOps [Op.mousedown, Op.mousemove true ⟨.num 3, .num 4⟩]
          initState).displayList.length ∧
    (redoSt^[1] (undoSt^[1]
        (runOps [Op.mousedown, Op.mousemove true ⟨.num 3, .num 4⟩]
          initState))).displayList
      = (runOps [Op.mousedown, Op.mousemove true ⟨.num 3, .num 4⟩]
          initState).displayList := by
  refine ⟨by decide, ?_⟩
  refine undo_redo_inverse _ ?_ 1 (by decide)
  intro o ho
  simp only [List.mem_cons, List.not_mem_nil, or_false] at ho
  rcases ho with rfl | rfl
  · exact Or.inl rfl
  · exact Or.inr ⟨⟨.num 3, .num 4⟩, rfl⟩

/-- C3: after `clear()` both the committed stack and the undone stack are
empty, whatever the prior state, so a subsequent undo or redo has nothing
to restore. -/
theorem clear_empties_both (s : AppState) :
    (drawingClear s).displayList = [] ∧ (drawingClear s).redoStack = [] ∧
    drawingUndo (drawingClear s) = (drawingClear s, false) ∧
    drawingRedo (drawingClear s) = (drawingClear s, false) := by
  refine ⟨rfl, rfl, ?_, ?_⟩ <;> simp [drawingClear, drawingUndo, drawingRedo]

theorem sticker_foldl_moves (t : String) (r : JsNum) (p0 : Point)
    (ps : List Point) :
    ps.foldl DrawCommand.move (DrawCommand.sticker t r p0)
      = DrawCommand.sticker t r (ps.getLastD p0) := by
  induction ps generalizing p0 with
  | nil => rfl
  | cons p ps ih =>
    simp only [List.foldl_cons, DrawCommand.move, ih]
    cases ps with
    | nil => rfl
    | cons q qs =>
      simp [List.getLastD_cons, List.getLast?_eq_getLast (q :: qs) (by simp)]

/-- C5: each `move` of a sticker replaces the stored anchor, so after a
non-empty sequence of moves the sticker's position equals exactly the most
recent argument. -/
theorem sticker_replace (t : String) (r : JsNum) (p0 : Point)
    (ps : List Point) (h : ps ≠ []) :
    (ps.foldl DrawCommand.move (DrawCommand.sticker t r p0)).posn
        = ps.getLast h ∧
    (∀ p q, DrawCommand.move (DrawCommand.sticker t r q) p
        = DrawCommand.sticker t r p) := by
  constructor
  · rw [sticker_foldl_moves]
    simp [DrawCommand.posn, List.getLastD_eq_getLast?,
      List.getLast?_eq_getLast ps h]
  · intro p q
    rfl

theorem sticker_replace_witness :
    (([⟨.num 1, .num 1⟩, ⟨.num 5, .num 7⟩] : List Point) ≠ []) ∧
    (([⟨.num 1, .num 1⟩, ⟨.num 5, .num 7⟩] : List Point).foldl
        DrawCommand.move (DrawCommand.sticker "X" (.num 0) nanPoint)).posn
      = Point.mk (.num 5) (.num 7) := by
  have h := sticker_replace "X" (.num 0) nanPoint
    [⟨.num 1, .num 1⟩, ⟨.num 5, .num 7⟩] (by decide)
  exact ⟨by decide, by rw [h.1]; rfl⟩

theorem forEachAdjacentPairLoop_some {T U : Type} (f : T → T → U)
    (a : T) (ts : List T) :
    forEachAdjacentPairLoop f (some a) ts
      = ((a :: ts).zip ts).map fun q => f q.1 q.2 := by
  induction ts generalizing a with
  | nil => rfl
  | cons t ts ih => simp [forEachAdjacentPairLoop, ih, List.zip_cons_cons]

theorem forEachAdjacentPair_eq_zip {T U : Type} (ts : List T)
    (f : T → T → U) :
    forEachAdjacentPair ts f = (ts.zip ts.tail).map fun q => f q.1 q.2 := by
  cases ts with
  | nil => rfl
  | cons t ts =>
    simpa [forEachAdjacentPair, forEachAdjacentPairLoop]
      using forEachAdjacentPairLoop_some f t ts

/-- C6: a stroke's `draw` strokes exactly the line segments between
consecutive stored points, in storage order: with fewer than 2 points no
primitive is issued, and with `k ≥ 2` points exactly `k - 1` segments are
stroked. -/
theorem stroke_render_polyline (w : JsNum) (c liveColor : String)
    (pts : List Point) :
    DrawCommand.draw (DrawCommand.marker w c pts) liveColor
        = (pts.zip pts.tail).map (fun q => Prim.line w c q.1 q.2) ∧
    (pts.length < 2 →
      DrawCommand.draw (DrawCommand.marker w c pts) liveColor = []) ∧
    (2 ≤ pts.length →
      (DrawCommand.draw (DrawCommand.marker w c pts) liveColor).length
        = pts.length - 1) := by
  have hmain : DrawCommand.draw (DrawCommand.marker w c pts) liveColor
      = (pts.zip pts.tail).map (fun q => Prim.line w c q.1 q.2) := by
    simp [DrawCommand.draw, forEachAdjacentPair_eq_zip]
  refine ⟨hmain, ?_, ?_⟩
  · intro hlt
    match pts, hlt with
    | [], _ => rfl
    | [p], _ => rfl
  · intro hge
    rw [hmain]
    simp only [List.length_map, List.length_zip, List.length_tail]
    omega

theorem stroke_render_polyline_witness :
    ((([] : List Point).length < 2) ∧
      DrawCommand.draw (DrawCommand.marker (.num 2) "#000000" []) "#000000"
        = []) ∧
    (2 ≤ ([⟨.num 0, .num 0⟩, ⟨.num 10, .num 0⟩] : List Point).length ∧
      (DrawCommand.draw
          (DrawCommand.marker (.num 2) "#000000"
            [⟨.num 0, .num 0⟩, ⟨.num 10, .num 0⟩]) "#000000").length = 1) :=
  ⟨⟨by decide,
    (stroke_render_polyline (.num 2) "#000000" "#000000" []).2.1 (by decide)⟩,
   ⟨by decide,
    (stroke_render_polyline (.num 2) "#000000" "#000000"
      [⟨.num 0, .num 0⟩, ⟨.num 10, .num 0⟩]).2.2 (by decide)⟩⟩

/-- C8: clicking the tool button of the already-active tool is a no-op: the
state (in particular the active tool identifier) is unchanged and the
tool-changed notification does not fire. -/
theorem select_active_tool_noop (s : AppState) (toolName : String)
    (h : s.drawingTool = toolName) :
    toolButtonClick toolName s = (s, false) := by
  simp [toolButtonClick, h]

theorem select_active_tool_noop_witness :
    initState.drawingTool = "Thin Marker" ∧
    toolButtonClick "Thin Marker" initState = (initState, false) :=
  ⟨rfl, select_active_tool_noop initState "Thin Marker" rfl⟩

theorem runOp_preserves_empty_redo (o : Op) (ho : o ≠ Op.undoClick)
    (s : AppState) (h : s.redoStack = []) : (runOp o s).redoStack = [] := by
  cases o with
  | mousedown =>
    cases hl : lookupTool s <;>
      simp [runOp, mousedownHandler, drawingBeginUndoStep, drawingHideCursor,
        hl]
  | mousemove held p =>
    by_cases hc : held = true ∧ s.displayList ≠ []
    · simp only [runOp, mousemoveHandler, if_pos hc]
      cases hg : drawingGetUndoStep (drawingHideCursor s) <;>
        simp [drawingHideCursor, h, hg]
    · simp only [runOp, mousemoveHandler, if_neg hc]
      cases hl : lookupTool s <;> simp [drawingShowCursor, hl, h]
  | undoClick => exact absurd rfl ho
  | redoClick => simp [runOp, drawingRedo, h]
  | clearClick => simp [runOp, drawingClear]
  | toolClick n =>
    have hkeep : ((toolButtonClick n s).1).redoStack = s.redoStack := by
      by_cases ht : s.drawingTool ≠ n
      · simp only [toolButtonClick, if_pos ht, drawingSetTool]
        cases hl : lookupTool {s with drawingTool := n} <;>
          simp [drawingShowCursor, hl]
      · simp [toolButtonClick, ht]
    simp only [runOp]
    rw [hkeep, h]

theorem runOps_preserves_empty_redo (ops : List Op)
    (hops : ∀ o ∈ ops, o ≠ Op.undoClick) :
    ∀ s : AppState, s.redoStack = [] → (runOps ops s).redoStack = [] := by
  induction ops with
  | nil => intro s h; exact h
  | cons o ops ih =>
    intro s h
    have hstep := runOp_preserves_empty_redo o (hops o (by simp)) s h
    simpa [runOps] using
      ih (fun o' ho' => hops o' (List.mem_cons_of_mem _ ho')) (runOp o s) hstep

/-- C2: after every `beginStep` the undone stack is empty (the redo stack
is cleared unconditionally, before anything is pushed), and every
subsequent `redo()` returns false as long as no `undo()` occurs in
between. -/
theorem beginStep_invalidates_redo (s : AppState) :
    (drawingBeginUndoStep s).1.redoStack = [] ∧
    (∀ ops : List Op, (∀ o ∈ ops, o ≠ Op.undoClick) →
      (runOps ops (drawingBeginUndoStep s).1).redoStack = [] ∧
      drawingRedo (runOps ops (drawingBeginUndoStep s).1)
        = (runOps ops (drawingBeginUndoStep s).1, false)) := by
  have h0 : (drawingBeginUndoStep s).1.redoStack = [] := by
    cases hl : lookupTool s <;> simp [drawingBeginUndoStep, hl]
  refine ⟨h0, fun ops hops => ?_⟩
  have h1 := runOps_preserves_empty_redo ops hops _ h0
  exact ⟨h1, by simp [drawingRedo, h1]⟩

theorem beginStep_invalidates_redo_witness :
    (runOps [Op.clearClick, Op.redoClick, Op.mousedown]
        (drawingBeginUndoStep initState).1).redoStack = [] ∧
    drawingRedo (runOps [Op.clearClick, Op.redoClick, Op.mousedown]
        (drawingBeginUndoStep initState).1)
      = (runOps [Op.clearClick, Op.redoClick, Op.mousedown]
          (drawingBeginUndoStep initState).1, false) :=
  (beginStep_invalidates_redo initState).2 _ (by decide)

/-- C7: requesting a draw command or a cursor preview for a tool id that
was never registered surfaces an `UnknownTool` error to the caller and
substitutes no default (the stacks and the cursor are left untouched);
for every registered id the stored factory is invoked instead. -/
theorem unknown_tool_error (s : AppState) :
    (lookupTool s = none →
      drawingBeginUndoStep s
          = ({s with redoStack := []}, some ToolError.unknownTool) ∧
      drawingShowCursor s = (s, some ToolError.unknownTool)) ∧
    (∀ t, lookupTool s = some t →
      drawingBeginUndoStep s
          = ({s with redoStack := []
                     displayList := s.displayList ++ [t.makeDrawCommand s]},
             none) ∧
      drawingShowCursor s
          = ({s with cursorDrawCommand := some (t.makeCursorDrawCommand s)},
             none)) := by
  constructor
  · intro hl
    constructor <;> simp [drawingBeginUndoStep, drawingShowCursor, hl]
  · intro t hl
    constructor <;> simp [drawingBeginUndoStep, drawingShowCursor, hl]

theorem unknown_tool_error_witness :
    lookupTool {initState with drawingTool := "Nope"} = none ∧
    drawingShowCursor {initState with drawingTool := "Nope"}
      = ({initState with drawingTool := "Nope"},
         some ToolError.unknownTool) :=
  ⟨by decide, ((unknown_tool_error _).1 (by decide)).2⟩

/-- C10: a fresh sticker captures the cursor preview's position at
creation time (the NaN sentinel when no preview exists, a constant not
derived from pointer input), and later cursor-preview moves leave the
committed and undone stacks untouched. -/
theorem sticker_captures_cursor (s : AppState) (text : String) :
    (∀ c, s.cursorDrawCommand = some c →
      ((DrawingTool.stickerTool text).makeDrawCommand s).posn = c.posn) ∧
    (s.cursorDrawCommand = none →
      ((DrawingTool.stickerTool text).makeDrawCommand s).posn = nanPoint) ∧
    (∀ p, (mousemoveHandler false p s).displayList = s.displayList ∧
          (mousemoveHandler false p s).redoStack = s.redoStack) := by
  refine ⟨?_, ?_, ?_⟩
  · intro c hc
    simp [DrawingTool.makeDrawCommand, DrawCommand.posn, cursorPosnOrNan, hc]
  · intro hc
    simp [DrawingTool.makeDrawCommand, DrawCommand.posn, cursorPosnOrNan, hc]
  · intro p
    have hcond : ¬(false = true ∧ s.displayList ≠ []) := by simp
    constructor <;>
    · simp only [mousemoveHandler, if_neg hcond]
      cases hl : lookupTool s <;> simp [drawingShowCursor, hl]

/-- Number of registry entries stored under a given tool id. -/
def countKey (reg : List (String × DrawingTool)) (k : String) : ℕ :=
  (reg.filter (fun e => e.1 == k)).length

theorem countKey_cons_eq (k : String) (t : DrawingTool)
    (rest : List (String × DrawingTool)) :
    countKey ((k, t) :: rest) k = countKey rest k + 1 := by
  simp [countKey, List.filter_cons]

theorem countKey_cons_ne (k2 k : String) (t : DrawingTool)
    (rest : List (String × DrawingTool)) (he : k2 ≠ k) :
    countKey ((k2, t) :: rest) k = countKey rest k := by
  simp [countKey, List.filter_cons, he]

theorem countKey_eq_zero_of_not_mem (reg : List (String × DrawingTool))
    (k : String) (h : k ∉ reg.map Prod.fst) : countKey reg k = 0 := by
  induction reg with
  | nil => rfl
  | cons e rest ih =>
    obtain ⟨k2, t⟩ := e
    simp only [List.map_cons, List.mem_cons, not_or] at h
    rw [countKey_cons_ne k2 k t rest (fun hh => h.1 hh.symm)]
    exact ih h.2

theorem countKey_eq_zero_of_lookup_none (reg : List (String × DrawingTool))
    (k : String) (h : lookupKey reg k = none) : countKey reg k = 0 := by
  induction reg with
  | nil => rfl
  | cons e rest ih =>
    obtain ⟨k2, t⟩ := e
    by_cases he : k2 = k
    · simp [lookupKey, he] at h
    · simp only [lookupKey, if_neg he] at h
      rw [countKey_cons_ne k2 k t rest he]
      exact ih h

theorem countKey_pos_of_lookup_some (reg : List (String × DrawingTool))
    (k : String) (t : DrawingTool) (h : lookupKey reg k = some t) :
    1 ≤ countKey reg k := by
  induction reg with
  | nil => simp [lookupKey] at h
  | cons e rest ih =>
    obtain ⟨k2, t2⟩ := e
    by_cases he : k2 = k
    · subst he
      rw [countKey_cons_eq]
      omega
    · simp only [lookupKey, if_neg he] at h
      rw [countKey_cons_ne k2 k t2 rest he]
      exact ih h

theorem countKey_le_one_of_nodup (reg : List (String × DrawingTool))
    (k : String) (h : (reg.map Prod.fst).Nodup) : countKey reg k ≤ 1 := by
  induction reg with
  | nil => simp [countKey]
  | cons e rest ih =>
    obtain ⟨k2, t⟩ := e
    simp only [List.map_cons, List.nodup_cons] at h
    by_cases he : k2 = k
    · subst he
      rw [countKey_cons_eq, countKey_eq_zero_of_not_mem rest k2 h.1]
    · rw [countKey_cons_ne k2 k t rest he]
      exact ih h.2

theorem lookupKey_append_self (reg : List (String × DrawingTool))
    (k : String) (t : DrawingTool) (h : lookupKey reg k = none) :
    lookupKey (reg ++ [(k, t)]) k = some t := by
  induction reg with
  | nil => simp [lookupKey]
  | cons e rest ih =>
    obtain ⟨k2, t2⟩ := e
    by_cases he : k2 = k
    · simp [lookupKey, he] at h
    · simp only [lookupKey, if_neg he] at h
      simpa [lookupKey, he] using ih h

theorem countKey_append (l l2 : List (String × DrawingTool)) (k : String) :
    countKey (l ++ l2) k = countKey l k + countKey l2 k := by
  simp [countKey, List.filter_append]

/-- C9 counterexample: registering the custom-sticker text "toString" on
the freshly initialized application answers true to the JS `in` test (the
key is inherited from `Object.prototype`), returns the inherited member
rather than a tool, and creates no registry entry and no button — the
registry holds zero entries for "toString" afterwards, not exactly one. -/
theorem define_custom_sticker_counterexample :
    defineCustomSticker initState "toString"
        = (initState, DefineResult.inherited "toString") ∧
    countKey (defineCustomSticker initState "toString").1.drawingTools
        "toString" = 0 ∧
    ¬ countKey (defineCustomSticker initState "toString").1.drawingTools
        "toString" = 1 := by
  decide

/-- C9 (amended): for a text that does not collide with an
`Object.prototype` member name, custom-sticker registration is idempotent:
registering a text that is already a registered tool id returns the
existing tool entry and changes nothing, so after registering the same
text any number of times the registry holds exactly one entry for that
text and has created at most one tool button.  (For a colliding text the
source takes the already-known branch, returns the inherited prototype
member and registers nothing.) -/
theorem define_custom_sticker_idempotent (s : AppState) (text : String)
    (hnd : (s.drawingTools.map Prod.fst).Nodup)
    (hproto : text ∉ objectPrototypeKeys) :
    countKey (defineCustomSticker s text).1.drawingTools text = 1 ∧
    (∀ t, lookupKey s.drawingTools text = some t →
      defineCustomSticker s text = (s, DefineResult.tool t)) ∧
    defineCustomSticker (defineCustomSticker s text).1 text
      = defineCustomSticker s text ∧
    (∀ n : ℕ, (fun st => (defineCustomSticker st text).1)^[n + 1] s
      = (defineCustomSticker s text).1) := by
  have hmain : countKey (defineCustomSticker s text).1.drawingTools text = 1 ∧
      (∀ t, lookupKey s.drawingTools text = some t →
        defineCustomSticker s text = (s, DefineResult.tool t)) ∧
      defineCustomSticker (defineCustomSticker s text).1 text
        = defineCustomSticker s text := by
    cases hl : lookupKey s.drawingTools text with
    | some t =>
      have hjs : jsIn s.drawingTools text = true := by
        simp [jsIn, hl]
      have heq : defineCustomSticker s text = (s, DefineResult.tool t) := by
        simp [defineCustomSticker, hjs, hl]
      refine ⟨?_, ?_, ?_⟩
      · rw [heq]
        show countKey s.drawingTools text = 1
        have h1 := countKey_pos_of_lookup_some s.drawingTools text t hl
        have h2 := countKey_le_one_of_nodup s.drawingTools text hnd
        omega
      · intro t2 ht2
        have h3 : t = t2 := Option.some.inj ht2
        subst h3
        exact heq
      · rw [heq]
        exact heq
    | none =>
      have hjs : jsIn s.drawingTools text = false := by
        simp [jsIn, hl, hproto]
      have hl2 : lookupKey (s.drawingTools
            ++ [(text, DrawingTool.stickerTool text)]) text
          = some (DrawingTool.stickerTool text) :=
        lookupKey_append_self s.drawingTools text _ hl
      have hjs2 : jsIn (s.drawingTools
            ++ [(text, DrawingTool.stickerTool text)]) text = true := by
        simp [jsIn, hl2]
      refine ⟨?_, ?_, ?_⟩
      · simp only [defineCustomSticker, hjs, if_false, Bool.false_eq_true]
        rw [countKey_append,
          countKey_eq_zero_of_lookup_none s.drawingTools text hl,
          countKey_cons_eq]
        rfl
      · intro t2 ht2
        exact Option.noConfusion ht2
      · simp [defineCustomSticker, hjs, hjs2, hl2]
  refine ⟨hmain.1, hmain.2.1, hmain.2.2, fun n => ?_⟩
  have hfix : (fun st => (defineCustomSticker st text).1)
      ((defineCustomSticker s text).1) = (defineCustomSticker s text).1 :=
    congrArg Prod.fst hmain.2.2
  rw [Function.iterate_succ_apply]
  exact Function.iterate_fixed hfix n

theorem define_custom_sticker_idempotent_witness :
    ((initState.drawingTools.map Prod.fst).Nodup) ∧
    ("XY" ∉ objectPrototypeKeys) ∧
    countKey (defineCustomSticker initState "XY").1.drawingTools "XY" = 1 :=
  ⟨by decide, by decide,
   (define_custom_sticker_idempotent initState "XY"
     (by decide) (by decide)).1⟩

theorem getElem?_append_lt (l l2 : List DrawCommand) (i : ℕ)
    (h : i < l.length) : (l ++ l2)[i]? = l[i]? := by
  rw [List.getElem?_append, if_pos h]

theorem getElem?_dropLast_lt (l : List DrawCommand) (i : ℕ)
    (h : i + 1 < l.length) : l.dropLast[i]? = l[i]? := by
  rw [List.dropLast_eq_take, List.getElem?_take,
    if_pos (show i < l.length - 1 by omega)]

theorem getElem?_dropLast_append (l : List DrawCommand) (x : DrawCommand)
    (i : ℕ) (h : i + 1 < l.length) : (l.dropLast ++ [x])[i]? = l[i]? := by
  have hi : i < l.dropLast.length := by
    simp only [List.length_dropLast]
    omega
  rw [List.getElem?_append, if_pos hi, getElem?_dropLast_lt l i h]

theorem toolClick_displayList (n : String) (s : AppState) :
    ((toolButtonClick n s).1).displayList = s.displayList := by
  by_cases ht : s.drawingTool ≠ n
  · simp only [toolButtonClick, if_pos ht, drawingSetTool]
    cases hl : lookupTool {s with drawingTool := n} <;>
      simp [drawingShowCursor, hl]
  · simp [toolButtonClick, ht]

theorem toolClick_redoStack (n : String) (s : AppState) :
    ((toolButtonClick n s).1).redoStack = s.redoStack := by
  by_cases ht : s.drawingTool ≠ n
  · simp only [toolButtonClick, if_pos ht, drawingSetTool]
    cases hl : lookupTool {s with drawingTool := n} <;>
      simp [drawingShowCursor, hl]
  · simp [toolButtonClick, ht]

theorem mousemove_else_displayList (held : Bool) (p : Point) (s : AppState)
    (hc : ¬(held = true ∧ s.displayList ≠ [])) :
    (mousemoveHandler held p s).displayList = s.displayList ∧
    (mousemoveHandler held p s).redoStack = s.redoStack := by
  constructor <;>
  · simp only [mousemoveHandler, if_neg hc]
    cases hl : lookupTool s <;> simp [drawingShowCursor, hl]

/-- Every command present anywhere in the state after one event was
already present before, or is the fresh command a mousedown pushed, or is
the old top with one point appended by a drag: an auxiliary case analysis
for the monotonicity claim. -/
theorem runOp_command_provenance (o : Op) (s : AppState) (cmd : DrawCommand)
    (hmem : cmd ∈ (runOp o s).displayList ∨ cmd ∈ (runOp o s).redoStack) :
    (cmd ∈ s.displayList ∨ cmd ∈ s.redoStack) ∨
    (∃ p, o = Op.mousemove true p ∧
      ∃ cmd0, s.displayList.getLast? = some cmd0 ∧ cmd = cmd0.move p) ∨
    (o = Op.mousedown ∧
      ∃ t, lookupTool s = some t ∧ cmd = t.makeDrawCommand s) := by
  cases o with
  | mousedown =>
    cases hl : lookupTool s with
    | none =>
      have hd : (runOp Op.mousedown s).displayList = s.displayList := by
        simp [runOp, mousedownHandler, drawingBeginUndoStep, hl]
      have hr : (runOp Op.mousedown s).redoStack = [] := by
        simp [runOp, mousedownHandler, drawingBeginUndoStep, hl]
      rw [hd, hr] at hmem
      rcases hmem with h | h
      · exact Or.inl (Or.inl h)
      · simp at h
    | some t =>
      have hd : (runOp Op.mousedown s).displayList
          = s.displayList ++ [t.makeDrawCommand s] := by
        simp [runOp, mousedownHandler, drawingBeginUndoStep,
          drawingHideCursor, hl]
      have hr : (runOp Op.mousedown s).redoStack = [] := by
        simp [runOp, mousedownHandler, drawingBeginUndoStep,
          drawingHideCursor, hl]
      rw [hd, hr] at hmem
      rcases hmem with h | h
      · rcases List.mem_append.mp h with h2 | h2
        · exact Or.inl (Or.inl h2)
        · exact Or.inr (Or.inr ⟨rfl, t, rfl, List.mem_singleton.mp h2⟩)
      · simp at h
  | mousemove held p =>
    by_cases hc : held = true ∧ s.displayList ≠ []
    · obtain ⟨hheld, hne⟩ := hc
      subst hheld
      cases hg : s.displayList.getLast? with
      | none =>
        rw [List.getLast?_eq_none_iff] at hg
        exact absurd hg hne
      | some cmd0 =>
        have hd : (runOp (Op.mousemove true p) s).displayList
            = s.displayList.dropLast ++ [cmd0.move p] := by
          simp [runOp, mousemoveHandler, drawingGetUndoStep,
            drawingHideCursor, hne, hg]
        have hr : (runOp (Op.mousemove true p) s).redoStack
            = s.redoStack := by
          simp [runOp, mousemoveHandler, drawingGetUndoStep,
            drawingHideCursor, hne, hg]
        rw [hd, hr] at hmem
        rcases hmem with h | h
        · rcases List.mem_append.mp h with h2 | h2
          · exact Or.inl (Or.inl ((List.dropLast_sublist s.displayList).subset h2))
          · exact Or.inr (Or.inl ⟨p, rfl, cmd0, rfl, List.mem_singleton.mp h2⟩)
        · exact Or.inl (Or.inr h)
    · have h2 := mousemove_else_displayList held p s hc
      have : runOp (Op.mousemove held p) s = mousemoveHandler held p s := rfl
      rw [this, h2.1, h2.2] at hmem
      exact Or.inl hmem
  | undoClick =>
    cases hg : s.displayList.getLast? with
    | none =>
      have : runOp Op.undoClick s = s := by simp [runOp, drawingUndo, hg]
      rw [this] at hmem
      exact Or.inl hmem
    | some cmd0 =>
      have hd : (runOp Op.undoClick s).displayList
          = s.displayList.dropLast := by simp [runOp, drawingUndo, hg]
      have hr : (runOp Op.undoClick s).redoStack
          = s.redoStack ++ [cmd0] := by simp [runOp, drawingUndo, hg]
      rw [hd, hr] at hmem
      rcases hmem with h | h
      · exact Or.inl (Or.inl ((List.dropLast_sublist s.displayList).subset h))
      · rcases List.mem_append.mp h with h2 | h2
        · exact Or.inl (Or.inr h2)
        · exact Or.inl (Or.inl
            (List.mem_singleton.mp h2 ▸ getLast?_mem_of_eq hg))
  | redoClick =>
    cases hg : s.redoStack.getLast? with
    | none =>
      have : runOp Op.redoClick s = s := by simp [runOp, drawingRedo, hg]
      rw [this] at hmem
      exact Or.inl hmem
    | some cmd0 =>
      have hd : (runOp Op.redoClick s).displayList
          = s.displayList ++ [cmd0] := by simp [runOp, drawingRedo, hg]
      have hr : (runOp Op.redoClick s).redoStack
          = s.redoStack.dropLast := by simp [runOp, drawingRedo, hg]
      rw [hd, hr] at hmem
      rcases hmem with h | h
      · rcases List.mem_append.mp h with h2 | h2
        · exact Or.inl (Or.inl h2)
        · exact Or.inl (Or.inr
            (List.mem_singleton.mp h2 ▸ getLast?_mem_of_eq hg))
      · exact Or.inl (Or.inr ((List.dropLast_sublist s.redoStack).subset h))
  | clearClick =>
    simp [runOp, drawingClear] at hmem
  | toolClick n =>
    have : runOp (Op.toolClick n) s = (toolButtonClick n s).1 := rfl
    rw [this, toolClick_displayList, toolClick_redoStack] at hmem
    exact Or.inl hmem

/-- For indices strictly below the top, the display list entry after one
event is the entry before it (only the top command is ever mutated): an
auxiliary lemma for the monotonicity claim. -/
theorem runOp_nontop_unchanged (o : Op) (s : AppState) (i : ℕ)
    (h1 : i + 1 < s.displayList.length)
    (h2 : i < (runOp o s).displayList.length) :
    (runOp o s).displayList[i]? = s.displayList[i]? := by
  have hi : i < s.displayList.length := by omega
  cases o with
  | mousedown =>
    cases hl : lookupTool s with
    | none => simp [runOp, mousedownHandler, drawingBeginUndoStep, hl]
    | some t =>
      have hd : (runOp Op.mousedown s).displayList
          = s.displayList ++ [t.makeDrawCommand s] := by
        simp [runOp, mousedownHandler, drawingBeginUndoStep,
          drawingHideCursor, hl]
      rw [hd, getElem?_append_lt _ _ _ hi]
  | mousemove held p =>
    by_cases hc : held = true ∧ s.displayList ≠ []
    · obtain ⟨hheld, hne⟩ := hc
      subst hheld
      cases hg : s.displayList.getLast? with
      | none =>
        rw [List.getLast?_eq_none_iff] at hg
        exact absurd hg hne
      | some cmd0 =>
        have hd : (runOp (Op.mousemove true p) s).displayList
            = s.displayList.dropLast ++ [cmd0.move p] := by
          simp [runOp, mousemoveHandler, drawingGetUndoStep,
            drawingHideCursor, hne, hg]
        rw [hd, getElem?_dropLast_append _ _ _ h1]
    · exact congrArg (fun l => l[i]?) (mousemove_else_displayList held p s hc).1
  | undoClick =>
    cases hg : s.displayList.getLast? with
    | none => simp [runOp, drawingUndo, hg]
    | some cmd0 =>
      have hd : (runOp Op.undoClick s).displayList
          = s.displayList.dropLast := by simp [runOp, drawingUndo, hg]
      rw [hd, getElem?_dropLast_lt _ _ h1]
  | redoClick =>
    cases hg : s.redoStack.getLast? with
    | none => simp [runOp, drawingRedo, hg]
    | some cmd0 =>
      have hd : (runOp Op.redoClick s).displayList
          = s.displayList ++ [cmd0] := by simp [runOp, drawingRedo, hg]
      rw [hd, getElem?_append_lt _ _ _ hi]
  | clearClick =>
    exfalso
    simp [runOp, drawingClear] at h2
  | toolClick n =>
    exact congrArg (fun l => l[i]?) (toolClick_displayList n s)

/-- C4: a stroke's point sequence only ever grows by appending, and only
while it is the top of the committed stack: `move` appends exactly one
point at the end, every command below the top is left untouched by every
event, and every command present after an event is an untouched old
command, the fresh command of a mousedown, or the old top with one point
appended by a drag — it never shrinks or reorders. -/
theorem stroke_monotonic :
    (∀ (w : JsNum) (c : String) (pts : List Point) (p : Point),
      DrawCommand.move (DrawCommand.marker w c pts) p
        = DrawCommand.marker w c (pts ++ [p])) ∧
    (∀ (o : Op) (s : AppState) (i : ℕ),
      i + 1 < s.displayList.length → i < (runOp o s).displayList.length →
      (runOp o s).displayList[i]? = s.displayList[i]?) ∧
    (∀ (o : Op) (s : AppState) (cmd : DrawCommand),
      cmd ∈ (runOp o s).displayList ∨ cmd ∈ (runOp o s).redoStack →
      (cmd ∈ s.displayList ∨ cmd ∈ s.redoStack) ∨
      (∃ p, o = Op.mousemove true p ∧
        ∃ cmd0, s.displayList.getLast? = some cmd0 ∧ cmd = cmd0.move p) ∨
      (o = Op.mousedown ∧
        ∃ t, lookupTool s = some t ∧ cmd = t.makeDrawCommand s)) :=
  ⟨fun _ _ _ _ => rfl, runOp_nontop_unchanged, runOp_command_provenance⟩

/-- A concrete state with two committed strokes, for the monotonicity
witness. -/
def c4State : AppState :=
  {initState with displayList :=
    [DrawCommand.marker (.num 2) "#000000" [],
     DrawCommand.marker (.num 6) "#000000" []]}

theorem stroke_monotonic_witness :
    0 + 1 < c4State.displayList.length ∧
    0 < (runOp Op.undoClick c4State).displayList.length ∧
    (runOp Op.undoClick c4State).displayList[0]?
        = c4State.displayList[0]? :=
  ⟨by decide, by decide,
    stroke_monotonic.2.1 Op.undoClick c4State 0 (by decide) (by decide)⟩

theorem sticker_captures_cursor_witness :
    initState.cursorDrawCommand
        = some (DrawCommand.circleCursor (.num 1) nanPoint) ∧
    ((DrawingTool.stickerTool "X").makeDrawCommand initState).posn
        = (DrawCommand.circleCursor (.num 1) nanPoint).posn :=
  ⟨rfl, (sticker_captures_cursor initState "X").1 _ rfl⟩

end StickerSketchpad
